import Mathlib

/-!
Shallow embedding of `motorhat.go` (package `motorhat`): a driver for a
PCA9685-class 16-channel PWM controller that drives four DC motors over a
register-addressed i2c bus.

Modelling choices:
* The out-of-scope i2c collaborator is an oracle `Bus` deciding, per
  transaction index, whether each register write/read succeeds and what each
  read returns.  A `BusState` threads the oracle, the two transaction
  counters and the trace of successfully performed register writes
  (register, byte) through the translated functions.
* `time.Sleep` calls are pure real-time delays with no register effect and
  are not modelled.
* The `float64` prescale computation of `setPWMFreq` is modelled with exact
  rational arithmetic.  Every intermediate value of the source computation
  is a rational number; for integer frequencies in the operating range the
  exact value `25000000/4096/f - 1 + 1/20` is at distance at least
  `1/(1280*f)` from every integer (its numerator over the denominator
  `1280*f` is never an exact integer because `16*(20*n+19)` can never divide
  `5^9`), which is many orders of magnitude above the float64 rounding
  error of the three operations, so the floored result is identical.
* Go `uint8` conversions at call sites are made explicit as `% 256`;
  `m &^ sleep` on a byte is `m &&& 0xEF`.
-/

namespace MotorHat

/-- Register addresses and mode bits, from the const block of motorhat.go. -/
def mode1 : Nat := 0x00

def mode2 : Nat := 0x01

def preescale : Nat := 0xFE

def led0OnL : Nat := 0x06

def led0OnH : Nat := 0x07

def led0OffL : Nat := 0x08

def led0OffH : Nat := 0x09

def allLedOnL : Nat := 0xFA

def allLedOnH : Nat := 0xFB

def allLedOffL : Nat := 0xFC

def allLedOffH : Nat := 0xFD

def sleep : Nat := 0x10

def allcall : Nat := 0x01

def outdrv : Nat := 0x04

/-- Motor to PWM-speed-channel map (`motorMapPWM`); a Go map lookup returns
the value and an ok flag, modelled as `Option`. -/
def motorMapPWM (m : Int) : Option Nat :=
  if m = 1 then some 8 else if m = 2 then some 13
  else if m = 3 then some 2 else if m = 4 then some 7 else none

/-- Motor to first direction-pin channel map (`motorMapIn1`). -/
def motorMapIn1 (m : Int) : Option Nat :=
  if m = 1 then some 10 else if m = 2 then some 11
  else if m = 3 then some 4 else if m = 4 then some 5 else none

/-- Motor to second direction-pin channel map (`motorMapIn2`). -/
def motorMapIn2 (m : Int) : Option Nat :=
  if m = 1 then some 9 else if m = 2 then some 12
  else if m = 3 then some 3 else if m = 4 then some 6 else none

/-- Transport-level failure of one bus transaction, tagged with the index of
the failing transaction. -/
inductive BusError where
  | writeFailed (n : Nat)
  | readFailed (n : Nat)
deriving DecidableEq, Repr

/-- Error returned by `getMotor` for a motor id outside 1..4 (the source's
`fmt.Errorf("Motor map not found!")`). -/
inductive MHError where
  | unknownMotor
deriving DecidableEq, Repr

/-- Oracle for the i2c collaborator: per write-transaction index, whether
the write succeeds; per read-transaction index, whether the read succeeds
and which byte it returns. -/
structure Bus where
  readVal : Nat → Nat
  readOk : Nat → Bool
  writeOk : Nat → Bool

/-- State threaded through the driver: the bus oracle, how many read and
write transactions have been attempted, and the trace of successfully
performed register writes (register, value), in order. -/
structure BusState where
  bus : Bus
  reads : Nat
  writes : Nat
  trace : List (Nat × Nat)

/-- One write transaction (`i2c.WriteRegister`).  A successful write is
appended to the trace; a failed write is counted but recorded nowhere and
produces the error the Go caller sees. -/
def writeRegister (s : BusState) (r v : Nat) : BusState × Option BusError :=
  if s.bus.writeOk s.writes then
    ({ s with writes := s.writes + 1, trace := s.trace ++ [(r, v)] }, none)
  else
    ({ s with writes := s.writes + 1 }, some (.writeFailed s.writes))

/-- One read transaction (`i2c.ReadRegister`); the returned value is a
byte. -/
def readRegister (s : BusState) : BusState × Except BusError Nat :=
  if s.bus.readOk s.reads then
    ({ s with reads := s.reads + 1 }, .ok (s.bus.readVal s.reads % 256))
  else
    ({ s with reads := s.reads + 1 }, .error (.readFailed s.reads))

/-- Sequential register writes with the source's shared-closure error
protocol (the `writeReg` closures of `setPWM`, `setAllPWM` and
`setPWMFreq`): once a write has failed, the remaining writes of the
sequence do nothing and the first failure is the returned error. -/
def writeSeq : BusState → List (Nat × Nat) → BusState × Option BusError
  | s, [] => (s, none)
  | s, (r, v) :: rest =>
    match writeRegister s r v with
    | (s1, some e) => (s1, some e)
    | (s1, none) => writeSeq s1 rest

/-- The four per-channel duty-cycle register writes issued by `setPWM`
(lines 233..237), with the call sites' `uint8` conversions explicit. -/
def dutyList (pin vOn vOff : Nat) : List (Nat × Nat) :=
  [ ((led0OnL + (4 * pin) % 256) % 256, vOn % 256),
    ((led0OnH + (4 * pin) % 256) % 256, (vOn >>> 8) % 256),
    ((led0OffL + (4 * pin) % 256) % 256, vOff % 256),
    ((led0OffH + (4 * pin) % 256) % 256, (vOff >>> 8) % 256) ]

/-- Per-channel duty-cycle write `setPWM(pin, on, off)`. -/
def setPWM (s : BusState) (pin vOn vOff : Nat) : BusState × Option BusError :=
  writeSeq s (dutyList pin vOn vOff)

/-- The four broadcast register writes issued by `setAllPWM`
(lines 254..258). -/
def allList (vOn vOff : Nat) : List (Nat × Nat) :=
  [ (allLedOnL, vOn % 256), (allLedOnH, (vOn >>> 8) % 256),
    (allLedOffL, vOff % 256), (allLedOffH, (vOff >>> 8) % 256) ]

/-- All-channel broadcast duty-cycle write `setAllPWM(on, off)`. -/
def setAllPWM (s : BusState) (vOn vOff : Nat) : BusState × Option BusError :=
  writeSeq s (allList vOn vOff)

/-- Digital-style pin write `setPin(pin, value)`: 1 is the full-on duty
encoding, 0 the full-off one, any other value does nothing.  The source
discards `setPWM`'s return value and always returns nil. -/
def setPin (s : BusState) (pin : Nat) (value : Int) : BusState × Option MHError :=
  if value = 1 then ((setPWM s pin 4096 0).1, none)
  else if value = 0 then ((setPWM s pin 0 4096).1, none)
  else (s, none)

/-- Motor lookup `getMotor(m)`: the three channel maps are consulted in
order; a missing entry yields the unknown-motor error. -/
def getMotor (m : Int) : Except MHError (Nat × Nat × Nat) :=
  match motorMapPWM m with
  | none => .error .unknownMotor
  | some pwm =>
    match motorMapIn1 m with
    | none => .error .unknownMotor
    | some in1 =>
      match motorMapIn2 m with
      | none => .error .unknownMotor
      | some in2 => .ok (pwm, in1, in2)

/-- Clamping of the speed argument into [0, 255] (lines 98..102). -/
def clampSpeed (v : Int) : Int :=
  if v < 0 then 0 else if v > 255 then 255 else v

/-- Motor speed command `Speed(m, s)`.  The source discards the value
returned by `setPWM` (line 104), so a bus failure inside the duty write
never reaches the caller; the clamped value is nonnegative so the `toNat`
conversion into the Nat-typed duty argument is exact. -/
def Speed (s : BusState) (m v : Int) : BusState × Option MHError :=
  match getMotor m with
  | .error e => (s, some e)
  | .ok (pwm, _, _) => ((setPWM s pwm 0 (clampSpeed v * 16).toNat).1, none)

/-- Direction command `Forward(m)`: in1 high, in2 low.  The `setPin`
results (always nil in the source) are discarded. -/
def Forward (s : BusState) (m : Int) : BusState × Option MHError :=
  match getMotor m with
  | .error e => (s, some e)
  | .ok (_, in1, in2) => (((setPin ((setPin s in1 1).1) in2 0).1), none)

/-- Direction command `Backward(m)`: in1 low, in2 high. -/
def Backward (s : BusState) (m : Int) : BusState × Option MHError :=
  match getMotor m with
  | .error e => (s, some e)
  | .ok (_, in1, in2) => (((setPin ((setPin s in1 0).1) in2 1).1), none)

/-- Direction command `Stop(m)`: both direction pins low. -/
def Stop (s : BusState) (m : Int) : BusState × Option MHError :=
  match getMotor m with
  | .error e => (s, some e)
  | .ok (_, in1, in2) => (((setPin ((setPin s in1 0).1) in2 0).1), none)

/-- Prescale computation of `setPWMFreq` (lines 188..192), with the
float64 steps modelled exactly over the rationals (see the module
comment for why the floored result is identical). -/
def prescale (freq : Nat) : Int :=
  let ps : ℚ := 25000000
  let ps := ps / 4096
  let ps := ps / (freq : ℚ)
  let ps := ps - 1
  ⌊ps + 0.05⌋

/-- Reference prescale computation, written from the spec's words:
floor(25_000_000 / 4096 / freq - 1 + 0.05). -/
def prescaleSpec (freq : Nat) : Int :=
  ⌊(25000000 : ℚ) / 4096 / (freq : ℚ) - 1 + 0.05⌋

/-- The four mode/prescale register writes issued by `setPWMFreq`
(lines 209..216) once the old mode byte has been read: sleep, prescale,
restore, restart.  `p` is the prescale byte. -/
def freqList (oldmode p : Nat) : List (Nat × Nat) :=
  [ (mode1, (oldmode &&& 0x7F) ||| sleep),
    (preescale, p),
    (mode1, oldmode),
    (mode1, oldmode ||| 0x80) ]

/-- Frequency change `setPWMFreq(freq)`: read the mode register, then the
short-circuiting four-write sequence.  The source writes
`uint8(math.Floor(ps))` where `ps` is already integral; this byte is
`(prescale freq).toNat % 256` for the nonnegative in-range frequencies at
which the driver ever calls it. -/
def setPWMFreq (s : BusState) (freq : Nat) : BusState × Option BusError :=
  match readRegister s with
  | (s1, .error e) => (s1, some e)
  | (s1, .ok oldmode) =>
    writeSeq s1 (freqList oldmode ((prescale freq).toNat % 256))

/-- Mode-register initialization `initPWM` (lines 159..184): write mode2,
write mode1, read mode1 back, clear its sleep bit (`m &^ sleep` on a byte
is `m &&& 0xEF`) and write it back, each step checked and short-circuited
exactly as in the source.  The two `time.Sleep` delays are not modelled. -/
def initPWM (s : BusState) : BusState × Option BusError :=
  match writeRegister s mode2 outdrv with
  | (s1, some e) => (s1, some e)
  | (s1, none) =>
    match writeRegister s1 mode1 allcall with
    | (s2, some e) => (s2, some e)
    | (s2, none) =>
      match readRegister s2 with
      | (s3, .error e) => (s3, some e)
      | (s3, .ok m) =>
        match writeRegister s3 mode1 (m &&& 0xEF) with
        | (s4, some e) => (s4, some e)
        | (s4, none) => (s4, none)

/-- Construction-time initialization `init` (lines 71..85): force all
channels off, run the mode-register sequence, then set the default 1600 Hz
base frequency, stopping at the first failure. -/
def init (s : BusState) : BusState × Option BusError :=
  match setAllPWM s 0 0 with
  | (s1, some e) => (s1, some e)
  | (s1, none) =>
    match initPWM s1 with
    | (s2, some e) => (s2, some e)
    | (s2, none) => setPWMFreq s2 1600

/-- Constructor `Open(addr, bus)` after a successful `i2c.New`: it runs
`init` and propagates its error (the failure path additionally closes the
bus handle, which performs no register write and is not modelled). -/
def Open (s : BusState) : BusState × Option BusError :=
  init s

/-- Decoding of a four-byte duty-cycle write back into the two counters,
low byte + 256 * high byte, as the chip latches them. -/
def decodeDuty : List (Nat × Nat) → Option (Nat × Nat)
  | [a, b, c, d] => some (a.2 + 256 * b.2, c.2 + 256 * d.2)
  | _ => none

/-- PWM channel of a valid motor id, read off the source's map. -/
def pwmChannelOf (m : Int) : Nat :=
  (motorMapPWM m).getD 0

/-- Evaluation of the prescale computation at the default 1600 Hz. -/
theorem prescale_1600 : prescale 1600 = 2 := by unfold prescale; norm_num

/-- On a bus whose writes all succeed, a write sequence performs every
write, appends it to the trace and reports no error. -/
theorem writeSeq_ok (l : List (Nat × Nat)) (s : BusState)
    (h : ∀ n, s.bus.writeOk n = true) :
    writeSeq s l =
      ({ s with writes := s.writes + l.length, trace := s.trace ++ l }, none) := by
  induction l generalizing s with
  | nil => simp [writeSeq]
  | cons p rest ih =>
    obtain ⟨r, v⟩ := p
    have hw : writeRegister s r v =
        ({ s with writes := s.writes + 1, trace := s.trace ++ [(r, v)] }, none) := by
      rw [writeRegister, if_pos (h s.writes)]
    simp only [writeSeq, hw]
    rw [ih { s with writes := s.writes + 1, trace := s.trace ++ [(r, v)] }
          (fun n => h n)]
    simp only [Prod.mk.injEq, BusState.mk.injEq, List.length_cons, List.append_assoc,
      List.singleton_append, and_true, true_and]
    omega

/-- On a bus whose first failing write is the i-th write of the sequence,
the sequence performs exactly the first i writes, attempts the failing one,
skips the rest and returns the failure. -/
theorem writeSeq_fail (l : List (Nat × Nat)) (s : BusState) (i : Nat)
    (hi : i < l.length)
    (hok : ∀ j, j < i → s.bus.writeOk (s.writes + j) = true)
    (hbad : s.bus.writeOk (s.writes + i) = false) :
    writeSeq s l =
      ({ s with writes := s.writes + i + 1, trace := s.trace ++ l.take i },
       some (BusError.writeFailed (s.writes + i))) := by
  induction l generalizing s i with
  | nil => simp at hi
  | cons p rest ih =>
    obtain ⟨r, v⟩ := p
    cases i with
    | zero =>
      have hb : s.bus.writeOk s.writes = false := by simpa using hbad
      have hw : writeRegister s r v =
          ({ s with writes := s.writes + 1 }, some (.writeFailed s.writes)) := by
        rw [writeRegister, if_neg (by simp [hb])]
      simp [writeSeq, hw]
    | succ k =>
      have h0 : s.bus.writeOk s.writes = true := by
        simpa using hok 0 (Nat.succ_pos k)
      have hw : writeRegister s r v =
          ({ s with writes := s.writes + 1, trace := s.trace ++ [(r, v)] }, none) := by
        rw [writeRegister, if_pos h0]
      simp only [writeSeq, hw]
      rw [ih { s with writes := s.writes + 1, trace := s.trace ++ [(r, v)] }
            k (Nat.lt_of_succ_lt_succ hi)
            (fun j hj => by
              show s.bus.writeOk (s.writes + 1 + j) = true
              have h2 := hok (j + 1) (Nat.succ_lt_succ hj)
              rw [show s.writes + 1 + j = s.writes + (j + 1) by omega]
              exact h2)
            (by
              show s.bus.writeOk (s.writes + 1 + k) = false
              rw [show s.writes + 1 + k = s.writes + (k + 1) by omega]
              exact hbad)]
      simp only [Prod.mk.injEq, BusState.mk.injEq, Option.some.injEq,
        BusError.writeFailed.injEq, List.take_succ_cons, List.append_assoc,
        List.singleton_append, true_and, and_true]
      omega

/-- Successful four-write duty-cycle sequence of setPWM. -/
theorem setPWM_ok (s : BusState) (pin vOn vOff : Nat)
    (h : ∀ n, s.bus.writeOk n = true) :
    setPWM s pin vOn vOff =
      ({ s with
          writes := s.writes + 4,
          trace := s.trace ++ dutyList pin vOn vOff }, none) := by
  rw [setPWM, writeSeq_ok _ _ h]
  norm_num [dutyList]

/-- Successful four-write broadcast sequence of setAllPWM. -/
theorem setAllPWM_ok (s : BusState) (vOn vOff : Nat)
    (h : ∀ n, s.bus.writeOk n = true) :
    setAllPWM s vOn vOff =
      ({ s with writes := s.writes + 4, trace := s.trace ++ allList vOn vOff }, none) := by
  rw [setAllPWM, writeSeq_ok _ _ h]
  norm_num [allList]

/-- Successful digital-pin write with value 1: the full-on duty encoding. -/
theorem setPin_one_ok (s : BusState) (pin : Nat)
    (h : ∀ n, s.bus.writeOk n = true) :
    setPin s pin 1 =
      ({ s with writes := s.writes + 4, trace := s.trace ++ dutyList pin 4096 0 }, none) := by
  simp [setPin, setPWM_ok s pin 4096 0 h]

/-- Successful digital-pin write with value 0: the full-off duty encoding. -/
theorem setPin_zero_ok (s : BusState) (pin : Nat)
    (h : ∀ n, s.bus.writeOk n = true) :
    setPin s pin 0 =
      ({ s with writes := s.writes + 4, trace := s.trace ++ dutyList pin 0 4096 }, none) := by
  simp [setPin, setPWM_ok s pin 0 4096 h]

/-- Successful mode-register initialization sequence of initPWM. -/
theorem initPWM_ok (s : BusState)
    (hW : ∀ n, s.bus.writeOk n = true) (hR : ∀ n, s.bus.readOk n = true) :
    initPWM s =
      ({ s with
          reads := s.reads + 1,
          writes := s.writes + 3,
          trace := s.trace ++ [(mode2, outdrv), (mode1, allcall),
            (mode1, (s.bus.readVal s.reads % 256) &&& 0xEF)] }, none) := by
  simp only [initPWM, writeRegister, readRegister, hW, hR, if_pos]
  simp only [Prod.mk.injEq, BusState.mk.injEq, List.append_assoc, List.singleton_append,
    List.cons_append, List.nil_append]

/-- Successful frequency-change sequence of setPWMFreq. -/
theorem setPWMFreq_ok (s : BusState) (freq : Nat)
    (hW : ∀ n, s.bus.writeOk n = true) (hR : ∀ n, s.bus.readOk n = true) :
    setPWMFreq s freq =
      ({ s with
          reads := s.reads + 1,
          writes := s.writes + 4,
          trace := s.trace ++
            freqList (s.bus.readVal s.reads % 256) ((prescale freq).toNat % 256) }, none) := by
  simp only [setPWMFreq, readRegister, hR, if_pos]
  rw [writeSeq_ok (freqList (s.bus.readVal s.reads % 256) ((prescale freq).toNat % 256))
        { s with reads := s.reads + 1 } (fun n => hW n)]
  norm_num [freqList]

/-- Motor lookup at each valid id. -/
theorem getMotor_1 : getMotor 1 = .ok (8, 10, 9) := rfl

/-- Motor lookup at id 2. -/
theorem getMotor_2 : getMotor 2 = .ok (13, 11, 12) := rfl

/-- Motor lookup at id 3. -/
theorem getMotor_3 : getMotor 3 = .ok (2, 4, 3) := rfl

/-- Motor lookup at id 4. -/
theorem getMotor_4 : getMotor 4 = .ok (7, 5, 6) := rfl

/-- A bus on which every transaction succeeds and every read returns 0. -/
def busOK : Bus := ⟨fun _ => 0, fun _ => true, fun _ => true⟩

/-- Fresh state over the all-succeeding bus. -/
def st0 : BusState := ⟨busOK, 0, 0, []⟩

/-- A bus on which every register write fails. -/
def busFail : Bus := ⟨fun _ => 0, fun _ => true, fun _ => false⟩

/-- Fresh state over the all-failing bus. -/
def stF : BusState := ⟨busFail, 0, 0, []⟩

/-- A bus whose third write transaction (index 2) fails and all other
transactions succeed. -/
def busFailAt2 : Bus := ⟨fun _ => 0, fun _ => true, fun n => n != 2⟩

/-- Fresh state over the bus failing at write index 2. -/
def stW : BusState := ⟨busFailAt2, 0, 0, []⟩

/-- C1 (amended): for every frequency f in the operating range 40..1600 Hz,
the prescale value computed by setPWMFreq equals
floor(25_000_000 / 4096 / f - 1 + 0.05), the spec's reference formula; in
particular, for f = 1600 the computed prescale value equals 2. -/
theorem prescale_matches_reference :
    (∀ f : Nat, 40 ≤ f → f ≤ 1600 → prescale f = prescaleSpec f) ∧
    prescale 1600 = 2 :=
  ⟨fun _ _ _ => rfl, prescale_1600⟩

/-- Witness for the C1 theorem at the concrete frequency 1600. -/
theorem prescale_matches_reference_w :
    prescale 1600 = prescaleSpec 1600 ∧ prescale 1600 = 2 :=
  ⟨prescale_matches_reference.1 1600 (by decide) (by decide),
   prescale_matches_reference.2⟩

/-- C1 counterexample: the claim asserts that the prescale value computed
for 1600 Hz equals 3, but the computation performed by setPWMFreq yields 2
there (2.8647 rounds down). -/
theorem prescale_1600_ne_three : prescale 1600 ≠ 3 := by
  rw [prescale_1600]; decide

/-- C2 (code-bug evidence): on a bus where every register write fails,
setPWM reports the failure of the very first duty-register write, yet
Speed returns no error after attempting exactly that write, and Forward,
Backward and Stop likewise return no error after their two failed pin
writes: the motor commands discard the bus failure instead of propagating
it. -/
theorem speed_discards_bus_failure :
    (setPWM stF 8 0 2048).2 = some (BusError.writeFailed 0) ∧
    (Speed stF 1 128).2 = none ∧ (Speed stF 1 128).1.writes = 1 ∧
    (Speed stF 1 128).1.trace = [] ∧
    (Forward stF 1).2 = none ∧ (Forward stF 1).1.writes = 2 ∧
    (Backward stF 1).2 = none ∧ (Stop stF 1).2 = none := by
  decide

/-- C4: setPin with value 1 writes the full-on duty pair on = 4096,
off = 0; with value 0 the full-off pair on = 0, off = 4096; any other
value performs no register write at all and succeeds. -/
theorem setPin_digital_encoding :
    (∀ (s : BusState) (pin : Nat), (∀ n, s.bus.writeOk n = true) →
      setPin s pin 1 =
        ({ s with writes := s.writes + 4, trace := s.trace ++ dutyList pin 4096 0 }, none) ∧
      setPin s pin 0 =
        ({ s with writes := s.writes + 4, trace := s.trace ++ dutyList pin 0 4096 }, none)) ∧
    (∀ (s : BusState) (pin : Nat) (v : Int), v ≠ 0 → v ≠ 1 →
      setPin s pin v = (s, none)) := by
  constructor
  · intro s pin h
    exact ⟨setPin_one_ok s pin h, setPin_zero_ok s pin h⟩
  · intro s pin v h0 h1
    simp [setPin, h0, h1]

/-- Witness for the C4 theorem at channel 4 and the out-of-range value 5. -/
theorem setPin_digital_encoding_w :
    (setPin st0 4 1 =
      ({ st0 with writes := st0.writes + 4, trace := st0.trace ++ dutyList 4 4096 0 }, none)) ∧
    setPin st0 4 5 = (st0, none) :=
  ⟨(setPin_digital_encoding.1 st0 4 (fun _ => rfl)).1,
   setPin_digital_encoding.2 st0 4 5 (by decide) (by decide)⟩

/-- C5: for every channel in [0,15] and 12-bit on/off values, the four
bytes written by the per-channel duty write are appended to the trace, and
decoding low byte + 256 * high byte reconstructs both values exactly. -/
theorem setPWM_encode_decode (s : BusState) (ch vOn vOff : Nat)
    (hW : ∀ n, s.bus.writeOk n = true) (_hch : ch ≤ 15)
    (hOn : vOn ≤ 4095) (hOff : vOff ≤ 4095) :
    (setPWM s ch vOn vOff).1.trace = s.trace ++ dutyList ch vOn vOff ∧
    decodeDuty (dutyList ch vOn vOff) = some (vOn, vOff) := by
  constructor
  · rw [setPWM_ok s ch vOn vOff hW]
  · have h1 : vOn >>> 8 = vOn / 256 := by
      rw [Nat.shiftRight_eq_div_pow]
    have h2 : vOff >>> 8 = vOff / 256 := by
      rw [Nat.shiftRight_eq_div_pow]
    simp only [decodeDuty, dutyList, h1, h2, Option.some.injEq, Prod.mk.injEq]
    constructor <;> omega

/-- Witness for the C5 theorem at channel 2, on = 4095, off = 1. -/
theorem setPWM_encode_decode_w :
    (setPWM st0 2 4095 1).1.trace = st0.trace ++ dutyList 2 4095 1 ∧
    decodeDuty (dutyList 2 4095 1) = some (4095, 1) :=
  setPWM_encode_decode st0 2 4095 1 (fun _ => rfl) (by decide) (by decide) (by decide)

/-- C6: every motor command called with an id outside 1..4 returns the
unknown-motor error and leaves the state untouched, so zero bus writes are
issued. -/
theorem unknown_motor_rejected (s : BusState) (m v : Int)
    (h1 : m ≠ 1) (h2 : m ≠ 2) (h3 : m ≠ 3) (h4 : m ≠ 4) :
    Speed s m v = (s, some MHError.unknownMotor) ∧
    Forward s m = (s, some MHError.unknownMotor) ∧
    Backward s m = (s, some MHError.unknownMotor) ∧
    Stop s m = (s, some MHError.unknownMotor) := by
  have hg : getMotor m = Except.error MHError.unknownMotor := by
    simp [getMotor, motorMapPWM, h1, h2, h3, h4]
  refine ⟨?_, ?_, ?_, ?_⟩ <;> simp [Speed, Forward, Backward, Stop, hg]

/-- Witness for the C6 theorem at motor id 0. -/
theorem unknown_motor_rejected_w :
    Speed st0 0 7 = (st0, some MHError.unknownMotor) ∧
    Forward st0 0 = (st0, some MHError.unknownMotor) ∧
    Backward st0 0 = (st0, some MHError.unknownMotor) ∧
    Stop st0 0 = (st0, some MHError.unknownMotor) :=
  unknown_motor_rejected st0 0 7 (by decide) (by decide) (by decide) (by decide)

/-- C3: Speed with a negative speed behaves exactly as speed 0, with a
speed above 255 exactly as speed 255, and for v in [0,255] writes on = 0
and off = 16v to the motor's PWM channel. -/
theorem speed_clamps_and_writes :
    (∀ (s : BusState) (m v : Int), v < 0 → Speed s m v = Speed s m 0) ∧
    (∀ (s : BusState) (m v : Int), 255 < v → Speed s m v = Speed s m 255) ∧
    (∀ (s : BusState) (m v : Int), (∀ n, s.bus.writeOk n = true) →
      0 ≤ v → v ≤ 255 → (m = 1 ∨ m = 2 ∨ m = 3 ∨ m = 4) →
      (Speed s m v).2 = none ∧
      (Speed s m v).1.trace = s.trace ++ dutyList (pwmChannelOf m) 0 (v.toNat * 16)) := by
  refine ⟨?_, ?_, ?_⟩
  · intro s m v hv
    have hc : clampSpeed v = clampSpeed 0 := by simp [clampSpeed, hv]
    simp only [Speed, hc]
  · intro s m v hv
    have hc : clampSpeed v = clampSpeed 255 := by
      unfold clampSpeed
      rw [if_neg (by omega), if_pos (by omega)]
      norm_num
    simp only [Speed, hc]
  · intro s m v hW h0 h255 hm
    have hcv : clampSpeed v = v := by
      unfold clampSpeed
      rw [if_neg (by omega), if_neg (by omega)]
    have key : ∀ pin in1 in2 : Nat, getMotor m = .ok (pin, in1, in2) →
        (Speed s m v).2 = none ∧
        (Speed s m v).1.trace = s.trace ++ dutyList pin 0 (v.toNat * 16) := by
      intro pin in1 in2 hg
      have hct : (v * 16).toNat = v.toNat * 16 := by omega
      simp only [Speed, hg, hcv, hct]
      rw [setPWM_ok s pin 0 (v.toNat * 16) hW]
      exact ⟨trivial, rfl⟩
    rcases hm with rfl | rfl | rfl | rfl
    · exact key 8 10 9 getMotor_1
    · exact key 13 11 12 getMotor_2
    · exact key 2 4 3 getMotor_3
    · exact key 7 5 6 getMotor_4

/-- Witness for the C3 theorem at motor 1 with speeds -5, 999 and 128. -/
theorem speed_clamps_and_writes_w :
    Speed st0 1 (-5) = Speed st0 1 0 ∧
    Speed st0 1 999 = Speed st0 1 255 ∧
    ((Speed st0 1 128).2 = none ∧
     (Speed st0 1 128).1.trace =
       st0.trace ++ dutyList (pwmChannelOf 1) 0 ((128 : Int).toNat * 16)) :=
  ⟨speed_clamps_and_writes.1 st0 1 (-5) (by decide),
   speed_clamps_and_writes.2.1 st0 1 999 (by decide),
   speed_clamps_and_writes.2.2 st0 1 128 (fun _ => rfl) (by decide) (by decide)
     (Or.inl rfl)⟩

/-- C7: in each multi-register write sequence (per-channel duty write,
all-channel broadcast write, and the prescale sequence following its mode
read), if the i-th byte write fails then the earlier writes are performed,
all later byte writes of the sequence are skipped (exactly i + 1 write
transactions are attempted), and the operation returns that first
failure. -/
theorem write_sequences_short_circuit (s : BusState) (pin vOn vOff freq i : Nat)
    (hi : i < 4)
    (hok : ∀ j, j < i → s.bus.writeOk (s.writes + j) = true)
    (hbad : s.bus.writeOk (s.writes + i) = false)
    (hR : s.bus.readOk s.reads = true) :
    setPWM s pin vOn vOff =
      ({ s with
          writes := s.writes + i + 1,
          trace := s.trace ++ (dutyList pin vOn vOff).take i },
       some (BusError.writeFailed (s.writes + i))) ∧
    setAllPWM s vOn vOff =
      ({ s with
          writes := s.writes + i + 1,
          trace := s.trace ++ (allList vOn vOff).take i },
       some (BusError.writeFailed (s.writes + i))) ∧
    setPWMFreq s freq =
      ({ s with
          reads := s.reads + 1,
          writes := s.writes + i + 1,
          trace := s.trace ++ (freqList (s.bus.readVal s.reads % 256)
            ((prescale freq).toNat % 256)).take i },
       some (BusError.writeFailed (s.writes + i))) := by
  refine ⟨?_, ?_, ?_⟩
  · rw [setPWM, writeSeq_fail _ s i (by norm_num [dutyList]; exact hi) hok hbad]
  · rw [setAllPWM, writeSeq_fail _ s i (by norm_num [allList]; exact hi) hok hbad]
  · simp only [setPWMFreq, readRegister, hR, if_pos]
    rw [writeSeq_fail (freqList (s.bus.readVal s.reads % 256) ((prescale freq).toNat % 256))
          { s with reads := s.reads + 1 } i (by norm_num [freqList]; exact hi)
          (fun j hj => hok j hj) hbad]

/-- Witness for the C7 theorem: a bus whose third write (index 2) fails,
channel 8, duty 0/2048, frequency 1600. -/
theorem write_sequences_short_circuit_w :
    setPWM stW 8 0 2048 =
      ({ stW with
          writes := stW.writes + 2 + 1,
          trace := stW.trace ++ (dutyList 8 0 2048).take 2 },
       some (BusError.writeFailed (stW.writes + 2))) ∧
    setAllPWM stW 0 2048 =
      ({ stW with
          writes := stW.writes + 2 + 1,
          trace := stW.trace ++ (allList 0 2048).take 2 },
       some (BusError.writeFailed (stW.writes + 2))) ∧
    setPWMFreq stW 1600 =
      ({ stW with
          reads := stW.reads + 1,
          writes := stW.writes + 2 + 1,
          trace := stW.trace ++ (freqList (stW.bus.readVal stW.reads % 256)
            ((prescale 1600).toNat % 256)).take 2 },
       some (BusError.writeFailed (stW.writes + 2))) :=
  write_sequences_short_circuit stW 8 0 2048 1600 2 (by decide) (by decide)
    (by decide) (by decide)

/-- C8: on motor 3 (PWM channel 2, direction channels in1 = 4, in2 = 3),
Forward writes the full-on pair to channel 4 then the full-off pair to
channel 3, Backward the opposite pattern, and Stop the full-off pair to
both; the trace equality shows exactly which eight registers are written,
so no other channel is touched. -/
theorem motor3_direction_patterns (s : BusState)
    (hW : ∀ n, s.bus.writeOk n = true) :
    (Forward s 3).2 = none ∧
    (Forward s 3).1.trace = s.trace ++ dutyList 4 4096 0 ++ dutyList 3 0 4096 ∧
    (Backward s 3).2 = none ∧
    (Backward s 3).1.trace = s.trace ++ dutyList 4 0 4096 ++ dutyList 3 4096 0 ∧
    (Stop s 3).2 = none ∧
    (Stop s 3).1.trace = s.trace ++ dutyList 4 0 4096 ++ dutyList 3 0 4096 := by
  refine ⟨?_, ?_, ?_, ?_, ?_, ?_⟩
  · simp only [Forward, getMotor_3]
  · simp only [Forward, getMotor_3, setPin_one_ok s 4 hW,
      setPin_zero_ok { s with writes := s.writes + 4, trace := s.trace ++ dutyList 4 4096 0 } 3
        (fun n => hW n)]
  · simp only [Backward, getMotor_3]
  · simp only [Backward, getMotor_3, setPin_zero_ok s 4 hW,
      setPin_one_ok { s with writes := s.writes + 4, trace := s.trace ++ dutyList 4 0 4096 } 3
        (fun n => hW n)]
  · simp only [Stop, getMotor_3]
  · simp only [Stop, getMotor_3, setPin_zero_ok s 4 hW,
      setPin_zero_ok { s with writes := s.writes + 4, trace := s.trace ++ dutyList 4 0 4096 } 3
        (fun n => hW n)]

/-- Witness for the C8 theorem on the all-succeeding bus. -/
theorem motor3_direction_patterns_w :
    (Forward st0 3).2 = none ∧
    (Forward st0 3).1.trace = st0.trace ++ dutyList 4 4096 0 ++ dutyList 3 0 4096 ∧
    (Backward st0 3).2 = none ∧
    (Backward st0 3).1.trace = st0.trace ++ dutyList 4 0 4096 ++ dutyList 3 4096 0 ∧
    (Stop st0 3).2 = none ∧
    (Stop st0 3).1.trace = st0.trace ++ dutyList 4 0 4096 ++ dutyList 3 0 4096 :=
  motor3_direction_patterns st0 (fun _ => rfl)

/-- C10: for every motor id in 1..4 and every integer speed argument, the
duty write of Speed carries on = 0 and an off value that is a multiple of
16, at most 4080 and strictly below 4096: a speed command can never
produce the full-on or full-off special encoding (bit 12, value 4096). -/
theorem speed_duty_invariant (s : BusState) (m v : Int)
    (hW : ∀ n, s.bus.writeOk n = true)
    (hm : m = 1 ∨ m = 2 ∨ m = 3 ∨ m = 4) :
    ∃ dOff : Nat,
      (Speed s m v).1.trace = s.trace ++ dutyList (pwmChannelOf m) 0 dOff ∧
      16 ∣ dOff ∧ dOff ≤ 4080 ∧ dOff < 4096 := by
  have hcb : 0 ≤ clampSpeed v ∧ clampSpeed v ≤ 255 := by
    unfold clampSpeed
    split
    · omega
    · split <;> omega
  have key : ∀ pin in1 in2 : Nat, getMotor m = .ok (pin, in1, in2) →
      (Speed s m v).1.trace = s.trace ++ dutyList pin 0 (clampSpeed v * 16).toNat := by
    intro pin in1 in2 hg
    simp only [Speed, hg]
    rw [setPWM_ok s pin 0 (clampSpeed v * 16).toNat hW]
  refine ⟨(clampSpeed v * 16).toNat, ?_, ⟨(clampSpeed v).toNat, by omega⟩,
    by omega, by omega⟩
  rcases hm with rfl | rfl | rfl | rfl
  · exact key 8 10 9 getMotor_1
  · exact key 13 11 12 getMotor_2
  · exact key 2 4 3 getMotor_3
  · exact key 7 5 6 getMotor_4

/-- Witness for the C10 theorem at motor 2 with speed 300. -/
theorem speed_duty_invariant_w :
    ∃ dOff : Nat,
      (Speed st0 2 300).1.trace = st0.trace ++ dutyList (pwmChannelOf 2) 0 dOff ∧
      16 ∣ dOff ∧ dOff ≤ 4080 ∧ dOff < 4096 :=
  speed_duty_invariant st0 2 300 (fun _ => rfl) (Or.inr (Or.inl rfl))

/-- C9: with every bus transaction succeeding, Open followed immediately
by Speed(1, 128) produces exactly, in order: the four-byte all-channel-off
broadcast of the init, the mode and prescale register sequence
establishing the 1600 Hz default (prescale byte 2), and four writes to
channel 8's duty registers whose bytes decode to on = 0, off = 2048. -/
theorem open_then_speed (s : BusState)
    (hW : ∀ n, s.bus.writeOk n = true) (hR : ∀ n, s.bus.readOk n = true) :
    ∃ s1, Open s = (s1, none) ∧ (Speed s1 1 128).2 = none ∧
      (Speed s1 1 128).1.trace =
        s.trace ++ allList 0 0
          ++ [(mode2, outdrv), (mode1, allcall),
              (mode1, (s.bus.readVal s.reads % 256) &&& 0xEF)]
          ++ freqList (s.bus.readVal (s.reads + 1) % 256) 2
          ++ dutyList 8 0 2048 ∧
      decodeDuty (dutyList 8 0 2048) = some (0, 2048) := by
  have e1 := setAllPWM_ok s 0 0 hW
  have e2 : initPWM { s with writes := s.writes + 4, trace := s.trace ++ allList 0 0 } =
      ({ s with
          reads := s.reads + 1,
          writes := s.writes + 7,
          trace := s.trace ++ allList 0 0
            ++ [(mode2, outdrv), (mode1, allcall),
                (mode1, (s.bus.readVal s.reads % 256) &&& 0xEF)] }, none) := by
    rw [initPWM_ok { s with writes := s.writes + 4, trace := s.trace ++ allList 0 0 }
          (fun n => hW n) (fun n => hR n)]
  have e3 : setPWMFreq { s with
      reads := s.reads + 1,
      writes := s.writes + 7,
      trace := s.trace ++ allList 0 0
        ++ [(mode2, outdrv), (mode1, allcall),
            (mode1, (s.bus.readVal s.reads % 256) &&& 0xEF)] } 1600 =
      ({ s with
          reads := s.reads + 2,
          writes := s.writes + 11,
          trace := s.trace ++ allList 0 0
            ++ [(mode2, outdrv), (mode1, allcall),
                (mode1, (s.bus.readVal s.reads % 256) &&& 0xEF)]
            ++ freqList (s.bus.readVal (s.reads + 1) % 256) 2 }, none) := by
    rw [setPWMFreq_ok { s with
          reads := s.reads + 1,
          writes := s.writes + 7,
          trace := s.trace ++ allList 0 0
            ++ [(mode2, outdrv), (mode1, allcall),
                (mode1, (s.bus.readVal s.reads % 256) &&& 0xEF)] } 1600
          (fun n => hW n) (fun n => hR n)]
    simp only [Prod.mk.injEq, BusState.mk.injEq, List.append_assoc, prescale_1600]
    norm_num
    rfl
  have hOpen : Open s =
      ({ s with
          reads := s.reads + 2,
          writes := s.writes + 11,
          trace := s.trace ++ allList 0 0
            ++ [(mode2, outdrv), (mode1, allcall),
                (mode1, (s.bus.readVal s.reads % 256) &&& 0xEF)]
            ++ freqList (s.bus.readVal (s.reads + 1) % 256) 2 }, none) := by
    simp only [Open, init, e1, e2, e3]
  refine ⟨_, hOpen, rfl, ?_, ?_⟩
  · have hc : (clampSpeed 128 * 16).toNat = 2048 := by decide
    simp only [Speed, getMotor_1, hc]
    rw [setPWM_ok { s with
          reads := s.reads + 2,
          writes := s.writes + 11,
          trace := s.trace ++ allList 0 0
            ++ [(mode2, outdrv), (mode1, allcall),
                (mode1, (s.bus.readVal s.reads % 256) &&& 0xEF)]
            ++ freqList (s.bus.readVal (s.reads + 1) % 256) 2 } 8 0 2048
          (fun n => hW n)]
  · have h1 : (2048 : Nat) >>> 8 = 8 := by decide
    simp [decodeDuty, dutyList, h1]

/-- Witness for the C9 theorem on the all-succeeding bus returning 0 from
every read. -/
theorem open_then_speed_w :
    ∃ s1, Open st0 = (s1, none) ∧ (Speed s1 1 128).2 = none ∧
      (Speed s1 1 128).1.trace =
        st0.trace ++ allList 0 0
          ++ [(mode2, outdrv), (mode1, allcall),
              (mode1, (st0.bus.readVal st0.reads % 256) &&& 0xEF)]
          ++ freqList (st0.bus.readVal (st0.reads + 1) % 256) 2
          ++ dutyList 8 0 2048 ∧
      decodeDuty (dutyList 8 0 2048) = some (0, 2048) :=
  open_then_speed st0 (fun _ => rfl) (fun _ => rfl)

end MotorHat
